import Mathlib

/-!
Shallow embedding of the papis command registry (`papis/commands/__init__.py`)
and the update workflow (`papis/commands/update.py`), together with proofs of
the specified properties.

Python dictionaries are embedded as insertion-ordered association lists
(`Dict`): `dput` is `d[k] = v` (replace in place if the key is present,
append otherwise) and `dlookup` is `d.get(k)`.  All dictionaries built by the
embedded code have pairwise distinct keys (`NodupKeys`), exactly as Python
dictionaries do.
-/

namespace Papis

/-- A Python `dict` with string keys: insertion-ordered association list. -/
abbrev Dict (α : Type) := List (String × α)

/-- `d[k] = v`: replace the entry for `k` in place if present, else append. -/
def dput {α : Type} (d : Dict α) (k : String) (v : α) : Dict α :=
  match d with
  | [] => [(k, v)]
  | p :: rest => if p.1 = k then (k, v) :: rest else p :: dput rest k v

/-- `d.get(k)`: the value of the first entry whose key is `k`, if any. -/
def dlookup {α : Type} (d : Dict α) (k : String) : Option α :=
  match d with
  | [] => none
  | p :: rest => if p.1 = k then some p.2 else dlookup rest k

/-- `d.update(e)`: fold every entry of `e` into `d`, later entries winning. -/
def dictUpdate {α : Type} (d e : Dict α) : Dict α :=
  e.foldl (fun acc p => dput acc p.1 p.2) d

/-- The keys of a dictionary are pairwise distinct (true of Python dicts). -/
def NodupKeys {α : Type} (d : Dict α) : Prop := (d.map Prod.fst).Nodup

instance {α : Type} (d : Dict α) : Decidable (NodupKeys d) :=
  inferInstanceAs (Decidable (d.map Prod.fst).Nodup)

/-! ## `papis/commands/__init__.py` -/

/-- A command object held by the registry.  Internal commands are produced by
`get_command_class_by_name(name)()` (dynamic import of
`papis.commands.<name>.Command`, modelled by its name); external commands wrap
an executable script found by the filesystem scan. -/
structure Cmd where
  isExternal : Bool
  name : String
  scriptPath : String
deriving DecidableEq

/-- The fixed, ordered list of built-in command names (`COMMAND_NAMES`). -/
def COMMAND_NAMES : List String :=
  ["default", "add", "check", "config", "edit", "export", "explore", "list",
   "rm", "mv", "open", "browse", "update", "run", "git", "gui", "sync"]

/-- The in-process command object for a built-in command
(`get_command_class_by_name(name)()` after `cmd.init()`). -/
def internalCmd (name : String) : Cmd :=
  { isExternal := false, name := name, scriptPath := "" }

/-- Modelled from the spec: the External Command Adapter
(`papis/commands/external.py`, not under `src/`) derives the command's public
name from the script's filename by stripping the fixed `papis-` naming
prefix (`"papis-".length = 6`). -/
def get_command_name (script : String) : String := script.drop 6

/-- The external command object wrapping one discovered script
(`External()` after `cmd.init(script)`). -/
def externalCmd (script : String) : Cmd :=
  { isExternal := true, name := get_command_name script, scriptPath := script }

/-- `init_internal_commands`: `commands[command] = cmd` for each built-in
name, in order. -/
def init_internal_commands : Dict Cmd :=
  COMMAND_NAMES.foldl (fun commands c => dput commands c (internalCmd c)) []

/-- The filesystem as seen by the external scan: the listing (basenames) of
the configured scripts folder, then the listing of each `PATH` directory, in
order.  Missing or empty directories are simply empty listings. -/
structure ScanEnv where
  scriptsFolder : List String
  pathDirs : List (List String)
deriving DecidableEq

/-- A filename matches the `papis-*` glob pattern exactly when its first six
characters are `papis-`. -/
def isPapisScript (f : String) : Bool := f.toList.take 6 == "papis-".toList

/-- `glob.glob(os.path.join(path, "papis-*"))`: the files of a directory
whose names match the `papis-` naming convention. -/
def globScripts (files : List String) : List String :=
  files.filter isPapisScript

/-- One iteration of the directory loop of `init_external_commands`:
`if len(scripts): for script in scripts: commands[cmd.get_command_name()] = cmd`. -/
def scanDir (commands : Dict Cmd) (dir : List String) : Dict Cmd :=
  let scripts := globScripts dir
  if scripts.length ≠ 0 then
    scripts.foldl
      (fun c script => dput c (get_command_name script) (externalCmd script)) commands
  else commands

/-- `init_external_commands()`: scan the scripts folder, then every `PATH`
directory, accumulating discovered external commands into one dict. -/
def init_external_commands (env : ScanEnv) : Dict Cmd :=
  (env.scriptsFolder :: env.pathDirs).foldl scanDir []

/-- All scripts matching the naming convention, in scan order (scripts folder
first, then each `PATH` directory in order). -/
def scannedScripts (env : ScanEnv) : List String :=
  (env.scriptsFolder :: env.pathDirs).foldr (fun dir acc => globScripts dir ++ acc) []

/-- The parsed command-line arguments (`argparse` namespace), modelled by the
argument vector. -/
abbrev Args := List String

/-- The module-level mutable state of `papis/commands/__init__.py`:
the `COMMANDS` and `ARGS` globals (both `None` at import time).  The parser
singletons are external `argparse` objects and carry no data the claims
depend on. -/
structure CommandsState where
  COMMANDS : Option (Dict Cmd)
  ARGS : Option Args
deriving DecidableEq

/-- The state right after module import: every global is `None`. -/
def initialState : CommandsState := { COMMANDS := none, ARGS := none }

/-- `set_args(args)`: assign the `ARGS` global only if it is still `None`. -/
def set_args (st : CommandsState) (args : Option Args) : CommandsState :=
  match st.ARGS with
  | none => { st with ARGS := args }
  | some _ => st

/-- `get_args()`: read the `ARGS` global. -/
def get_args (st : CommandsState) : Option Args := st.ARGS

/-- `set_commands(commands)`: assign the `COMMANDS` global. -/
def set_commands (st : CommandsState) (commands : Dict Cmd) : CommandsState :=
  { st with COMMANDS := some commands }

/-- `get_commands()`: read the `COMMANDS` global. -/
def get_commands (st : CommandsState) : Option (Dict Cmd) := st.COMMANDS

/-- `init()`: raise `RuntimeError` if the registry is already built; otherwise
build `commands = dict()`, apply `commands.update(init_internal_commands())`
then `commands.update(init_external_commands())`, publish via `set_commands`,
and return the mapping.  (`argcomplete.autocomplete` only touches the external
parser object.) -/
def init (st : CommandsState) (env : ScanEnv) :
    Except String (CommandsState × Dict Cmd) :=
  if (get_commands st).isSome then
    .error "Commands are already initialised"
  else
    let commands : Dict Cmd := []
    let commands := dictUpdate commands init_internal_commands
    let commands := dictUpdate commands (init_external_commands env)
    .ok (set_commands st commands, commands)

/-! ## `papis/commands/update.py`

The document representation (`papis/document.py`), the importer machinery
(`papis/importer.py`) and the interactive helpers (`papis/utils.py`) are not
under `src/`; they are modelled from the spec where the claims need them.
Field values are strings. -/

/-- A document's field mapping. -/
abbrev Doc := Dict String

/-- One document's state: `mem` is the in-memory mapping-like object, `saved`
the fields persisted to its folder representation (mirrored into the document
store's index by `papis.database.get().update`). -/
structure DocState where
  mem : Doc
  saved : Doc
deriving DecidableEq

/-- Modelled from the spec: `Document.__getitem__` (`papis/document.py`, not
under `src/`) — mapping-like item get; the claims only read fields that are
present, an absent field reads as the empty value. -/
def doc_getitem (d : Doc) (k : String) : String := (dlookup d k).getD ""

/-- Modelled from the spec: `Document.__delitem__` (`papis/document.py`, not
under `src/`) — mapping-like item delete; deleting an absent field raises
(the `ValueError` that `cli` reports as a non-fatal error). -/
def doc_delitem (d : Doc) (k : String) : Option Doc :=
  if (d.map Prod.fst).contains k then some (d.filter (fun p => p.1 != k)) else none

/-- `_update_with_database(document)`: `document.save()` persists the
in-memory fields to the folder; the store's index entry is updated to the
same mapping. -/
def _update_with_database (st : DocState) : DocState := { st with saved := st.mem }

/-- `run(document, data, force)`: overwrite `data['ref']` with the document's
pre-merge `ref` (mutating the caller's dict, returned as the second
component), merge `data` into the document in place and commit it. -/
def run (st : DocState) (data : Dict String) (force : Bool := false) :
    DocState × Dict String :=
  let data := dput data "ref" (doc_getitem st.mem "ref")
  let st := { st with mem := dictUpdate st.mem data }
  (_update_with_database st, data)

/-- Modelled from the spec: the Import Context (`papis.importer.Context`, not
under `src/`) — transient accumulator `{data, files}` for one update. -/
structure Context where
  data : Dict String
  files : List String
deriving DecidableEq

/-- The outcome of driving one importer against a document: it may raise
`NotImplementedError` ("not applicable"), raise some other exception, or
fetch successfully, exposing its context's truthiness, data and files. -/
inductive ImporterOutcome
  | notApplicable
  | raisesError
  | fetched (ctxTruthy : Bool) (data : Dict String) (files : List String)

/-- The error-level log records the claims observe: `logger.error` on a
failed delete, `logger.exception` on an importer failure. -/
inductive LogEntry
  | deleteMissingKey (key : String)
  | importerFailed
deriving DecidableEq

/-- The `click` options of the `update` command. -/
structure CliOptions where
  interactive : Bool
  force : Bool
  auto : Bool
  all : Bool
  from_importer : List (String × String)
  set : List (String × String)
  delete : List String

/-- The external collaborators `cli` drives: `papis.importer.get_importers()`
(each importer's behaviour on a document), named-importer fetches for
`--from name uri`, `papis.utils.format_doc`, and the `papis.utils.confirm`
prompts for candidate files and for interactive deletes. -/
structure CliEnv where
  importers : List (Doc → ImporterOutcome)
  fromFetch : String → String → ImporterOutcome
  format_doc : String → Doc → String
  confirmFile : String → Bool
  confirmDelete : String → Bool

/-- One iteration of the `--delete` loop (update.py lines 160–179): decide
whether to delete, then `del document[key]`, reporting `ValueError` as a
non-fatal error and persisting only on success. -/
def deleteStep (env : CliEnv) (opts : CliOptions)
    (acc : DocState × List LogEntry) (key : String) : DocState × List LogEntry :=
  let st := acc.1
  let conf := if opts.interactive then env.confirmDelete key else true
  let deleteKey :=
    if opts.interactive && conf && !opts.force then true
    else if !conf then false
    else true
  if deleteKey then
    match doc_delitem st.mem key with
    | none => (st, acc.2 ++ [LogEntry.deleteMissingKey key])
    | some mem' => (_update_with_database { st with mem := mem' }, acc.2)
  else (st, acc.2)

/-- The result of one document's pass through the `for document in documents`
loop body (update.py lines 144–179). -/
structure ProcResult where
  st : DocState
  ctx : Context
  log : List LogEntry

/-- The loop body: seed a fresh context with the document's fields, apply the
`--set` directives to the context, then run the `--delete` loop on the
document itself. -/
def processDocument (env : CliEnv) (opts : CliOptions) (st : DocState) : ProcResult :=
  let ctx : Context := { data := dictUpdate [] st.mem, files := [] }
  let ctx :=
    if opts.set.length ≠ 0 then
      { ctx with
        data := dictUpdate ctx.data
          (opts.set.map (fun s => (s.1, env.format_doc s.2 st.mem))) }
    else ctx
  if opts.delete.length ≠ 0 then
    let r := opts.delete.foldl (deleteStep env opts) (st, [])
    { st := r.1, ctx := ctx, log := r.2 }
  else { st := st, ctx := ctx, log := [] }

/-- The `--auto` importer loop (update.py lines 183–193): `NotImplementedError`
skips silently, any other exception is logged and that importer is dropped,
a fetched importer is kept when its context is truthy. -/
def autoImporters (env : CliEnv) (doc : Doc) :
    List (Dict String × List String) × List LogEntry :=
  env.importers.foldl
    (fun acc imp =>
      match imp doc with
      | .notApplicable => acc
      | .raisesError => (acc.1, acc.2 ++ [LogEntry.importerFailed])
      | .fetched ctxTruthy d f =>
          if ctxTruthy then (acc.1 ++ [(d, f)], acc.2) else acc)
    ([], [])

/-- The `--from name uri` loop (update.py lines 195–204): the URI is formatted
against the document, any exception is logged and that directive is skipped,
a fetched importer is kept when its context is truthy. -/
def fromImporters (env : CliEnv) (doc : Doc) (dirs : List (String × String)) :
    List (Dict String × List String) × List LogEntry :=
  dirs.foldl
    (fun acc dir =>
      match env.fromFetch dir.1 (env.format_doc dir.2 doc) with
      | .notApplicable => (acc.1, acc.2 ++ [LogEntry.importerFailed])
      | .raisesError => (acc.1, acc.2 ++ [LogEntry.importerFailed])
      | .fetched ctxTruthy d f =>
          if ctxTruthy then (acc.1 ++ [(d, f)], acc.2) else acc)
    ([], [])

/-- Modelled from the spec: `papis.utils.update_doc_from_data_interactively`
(`papis/utils.py`, not under `src/`) merges an importer's field data into the
context's data, the incoming value taken on a per-field conflict (the spec
leaves the exact interactive precedence open). -/
def update_doc_from_data_interactively (data newData : Dict String) : Dict String :=
  dictUpdate data newData

/-- The merge loop body (update.py lines 210–225): merge a matching importer's
data into the context if non-empty, then offer each of its candidate files,
appending the confirmed ones. -/
def mergeImporter (env : CliEnv) (ctx : Context)
    (imp : Dict String × List String) : Context :=
  let ctx :=
    if imp.1.length ≠ 0 then
      { ctx with data := update_doc_from_data_interactively ctx.data imp.1 }
    else ctx
  if imp.2.length ≠ 0 then
    { ctx with files := ctx.files ++ imp.2.filter env.confirmFile }
  else ctx

/-- The observable result of one `cli` invocation: the final state of every
processed document and the error-level log. -/
structure CliResult where
  docs : List DocState
  log : List LogEntry
deriving DecidableEq

/-- `cli` (update.py lines 120–230) on the documents left after the database
query / `--doc-folder` / picking stage (those collaborators are external).
Each document passes through the loop body; the importer collection, the merge
loop and the `run` commit sit after the loop in the source, so they act once,
on the loop variables of the last iteration, and `run` is reached only when
`matching_importers` is non-empty. -/
def cli (env : CliEnv) (opts : CliOptions) (documents : List DocState) : CliResult :=
  let processed := documents.map (processDocument env opts)
  match processed.getLast? with
  | none => { docs := [], log := [] }
  | some lastP =>
      let loopLog := (processed.map ProcResult.log).foldl (· ++ ·) []
      let autoResult :=
        if opts.from_importer.length = 0 && opts.auto then autoImporters env lastP.st.mem
        else ([], [])
      let fromResult := fromImporters env lastP.st.mem opts.from_importer
      let matching := autoResult.1 ++ fromResult.1
      let log := loopLog ++ autoResult.2 ++ fromResult.2
      if matching.length ≠ 0 then
        let ctx := matching.foldl (mergeImporter env) lastP.ctx
        let final := (run lastP.st ctx.data opts.force).1
        { docs := (processed.map ProcResult.st).dropLast ++ [final], log := log }
      else
        { docs := processed.map ProcResult.st, log := log }

/-! ## Concrete inputs used by witnesses and counterexamples -/

/-- An environment in which no importer matches anything and every prompt is
declined; `format_doc` is the identity on format strings without
placeholders. -/
def envPure : CliEnv :=
  { importers := [], fromFetch := fun _ _ => ImporterOutcome.raisesError,
    format_doc := fun s _ => s, confirmFile := fun _ => false,
    confirmDelete := fun _ => false }

/-- `envPure` extended with one importer that fetches `title = T` and one
importer that raises. -/
def envC6 : CliEnv :=
  { envPure with
    importers := [fun _ => ImporterOutcome.fetched true [("title", "T")] [],
                  fun _ => ImporterOutcome.raisesError] }

/-- A persisted document with `ref = r1` and `tags = old`. -/
def docTags : DocState :=
  { mem := [("ref", "r1"), ("tags", "old")],
    saved := [("ref", "r1"), ("tags", "old")] }

/-- The `update` command's option defaults: interactive, no force, no auto,
no directives. -/
def optsBase : CliOptions :=
  { interactive := true, force := false, auto := false, all := false,
    from_importer := [], set := [], delete := [] }

/-! ## Dictionary lemmas -/

theorem dlookup_nil {α : Type} (k : String) : dlookup ([] : Dict α) k = none := rfl

theorem dlookup_cons {α : Type} (p : String × α) (d : Dict α) (k : String) :
    dlookup (p :: d) k = if p.1 = k then some p.2 else dlookup d k := rfl

theorem dlookup_dput_self {α : Type} (d : Dict α) (k : String) (v : α) :
    dlookup (dput d k v) k = some v := by
  induction d with
  | nil => simp [dput, dlookup]
  | cons p rest ih =>
      by_cases h : p.1 = k
      · simp [dput, h, dlookup]
      · simp [dput, h, dlookup, ih]

theorem dlookup_dput_ne {α : Type} (d : Dict α) (k k' : String) (v : α) (h : k ≠ k') :
    dlookup (dput d k v) k' = dlookup d k' := by
  induction d with
  | nil => simp [dput, dlookup, h]
  | cons p rest ih =>
      by_cases hp : p.1 = k
      · subst hp
        simp [dput, dlookup, h]
      · simp [dput, hp, dlookup, ih]

theorem mem_keys_dput {α : Type} (d : Dict α) (k a : String) (v : α) :
    a ∈ (dput d k v).map Prod.fst ↔ a = k ∨ a ∈ d.map Prod.fst := by
  induction d with
  | nil => simp [dput]
  | cons p rest ih =>
      by_cases hp : p.1 = k
      · subst hp
        simp [dput]
      · simp [dput, hp, ih]
        tauto

theorem nodupKeys_dput {α : Type} (d : Dict α) (k : String) (v : α)
    (h : NodupKeys d) : NodupKeys (dput d k v) := by
  induction d with
  | nil => simp [NodupKeys, dput]
  | cons p rest ih =>
      rw [NodupKeys, List.map_cons, List.nodup_cons] at h
      by_cases hp : p.1 = k
      · subst hp
        rw [NodupKeys, dput]
        simpa [List.nodup_cons] using h
      · rw [NodupKeys, dput, if_neg hp, List.map_cons, List.nodup_cons]
        exact ⟨fun hm => ((mem_keys_dput rest k p.1 v).mp hm).elim
          (fun he => hp he) h.1, ih h.2⟩

theorem dlookup_eq_none_of_not_mem {α : Type} (d : Dict α) (k : String)
    (h : k ∉ d.map Prod.fst) : dlookup d k = none := by
  induction d with
  | nil => rfl
  | cons p rest ih =>
      simp only [List.map_cons, List.mem_cons, not_or] at h
      rw [dlookup_cons, if_neg (fun hp => h.1 hp.symm)]
      exact ih h.2

theorem contains_keys_eq_isSome {α : Type} (d : Dict α) (k : String) :
    (d.map Prod.fst).contains k = (dlookup d k).isSome := by
  induction d with
  | nil => rfl
  | cons p rest ih =>
      rw [List.map_cons, List.contains_cons, ih, dlookup_cons]
      by_cases hp : p.1 = k
      · subst hp
        simp
      · rw [if_neg hp, beq_eq_false_iff_ne.mpr (Ne.symm hp), Bool.false_or]

theorem dlookup_dictUpdate {α : Type} (d e : Dict α) (k : String) (he : NodupKeys e) :
    dlookup (dictUpdate d e) k =
      match dlookup e k with
      | some v => some v
      | none => dlookup d k := by
  induction e generalizing d with
  | nil => rfl
  | cons p rest ih =>
      rw [NodupKeys, List.map_cons, List.nodup_cons] at he
      show dlookup (dictUpdate (dput d p.1 p.2) rest) k = _
      rw [ih _ he.2]
      by_cases hk : p.1 = k
      · subst hk
        rw [dlookup_eq_none_of_not_mem rest p.1 he.1]
        simp [dlookup_cons, dlookup_dput_self]
      · rw [dlookup_cons, if_neg hk, dlookup_dput_ne d p.1 k p.2 hk]

theorem nodupKeys_foldl_dput {α β : Type} (l : List β) (f : β → String) (g : β → α)
    (d : Dict α) (h : NodupKeys d) :
    NodupKeys (l.foldl (fun c x => dput c (f x) (g x)) d) := by
  induction l generalizing d with
  | nil => exact h
  | cons x rest ih => exact ih _ (nodupKeys_dput d (f x) (g x) h)

theorem nodupKeys_dictUpdate {α : Type} (d e : Dict α) (h : NodupKeys d) :
    NodupKeys (dictUpdate d e) :=
  nodupKeys_foldl_dput e Prod.fst Prod.snd d h

theorem nodupKeys_nil {α : Type} : NodupKeys ([] : Dict α) := List.nodup_nil

/-! ## Registry lemmas -/

theorem scanDir_eq (c : Dict Cmd) (dir : List String) :
    scanDir c dir = (globScripts dir).foldl
      (fun c script => dput c (get_command_name script) (externalCmd script)) c := by
  unfold scanDir
  by_cases h : (globScripts dir).length ≠ 0
  · simp [h]
  · rw [not_not, List.length_eq_zero] at h
    simp [h]

theorem foldl_scanDir_eq (dirs : List (List String)) (d : Dict Cmd) :
    dirs.foldl scanDir d =
      (dirs.foldr (fun dir acc => globScripts dir ++ acc) []).foldl
        (fun c script => dput c (get_command_name script) (externalCmd script)) d := by
  induction dirs generalizing d with
  | nil => rfl
  | cons dir rest ih =>
      rw [List.foldl_cons, List.foldr_cons, List.foldl_append, ih, scanDir_eq]

theorem init_external_eq (env : ScanEnv) :
    init_external_commands env = (scannedScripts env).foldl
      (fun c script => dput c (get_command_name script) (externalCmd script)) [] :=
  foldl_scanDir_eq (env.scriptsFolder :: env.pathDirs) []

theorem nodupKeys_init_external (env : ScanEnv) :
    NodupKeys (init_external_commands env) := by
  rw [init_external_eq]
  exact nodupKeys_foldl_dput (scannedScripts env) get_command_name externalCmd [] nodupKeys_nil

theorem dlookup_foldl_external (scripts : List String) (d : Dict Cmd) (n : String) :
    dlookup (scripts.foldl
        (fun c script => dput c (get_command_name script) (externalCmd script)) d) n =
      match scripts.reverse.find? (fun s => get_command_name s == n) with
      | some s => some (externalCmd s)
      | none => dlookup d n := by
  induction scripts generalizing d with
  | nil => rfl
  | cons s rest ih =>
      rw [List.foldl_cons, ih, List.reverse_cons, List.find?_append]
      cases h : rest.reverse.find? (fun s => get_command_name s == n) with
      | some s' => rw [Option.or_some]
      | none =>
          rw [Option.none_or]
          by_cases hn : get_command_name s = n
          · subst hn
            rw [List.find?_cons_of_pos [] (by simp)]
            exact dlookup_dput_self d (get_command_name s) (externalCmd s)
          · rw [List.find?_cons_of_neg [] (by simpa using hn)]
            exact dlookup_dput_ne d (get_command_name s) n (externalCmd s) hn

/-! ## Claims about the registry -/

/-- C8: for every collection of files matching the `papis-` naming prefix
spread across the scanned directories (configured scripts folder first, then
each search-path directory in order), the external discovery result contains
exactly one entry per distinct derived command name (its keys are pairwise
distinct and a name is present exactly when some scanned script derives it),
and on a name collision the entry from the last-scanned script — hence from
the last-scanned directory — wins. -/
theorem c8_external_scan (env : ScanEnv) :
    NodupKeys (init_external_commands env) ∧
    (∀ n : String,
      dlookup (init_external_commands env) n =
        match (scannedScripts env).reverse.find? (fun s => get_command_name s == n) with
        | some s => some (externalCmd s)
        | none => none) ∧
    (∀ n : String, (dlookup (init_external_commands env) n).isSome ↔
        ∃ s ∈ scannedScripts env, get_command_name s = n) := by
  have hchar : ∀ n : String, dlookup (init_external_commands env) n =
      match (scannedScripts env).reverse.find? (fun s => get_command_name s == n) with
      | some s => some (externalCmd s)
      | none => none := by
    intro n
    rw [init_external_eq, dlookup_foldl_external]
    cases (scannedScripts env).reverse.find? (fun s => get_command_name s == n) <;> rfl
  refine ⟨nodupKeys_init_external env, hchar, fun n => ?_⟩
  rw [hchar n]
  cases h : (scannedScripts env).reverse.find? (fun s => get_command_name s == n) with
  | some s =>
      simp only [Option.isSome_some, true_iff]
      exact ⟨s, List.mem_reverse.mp (List.mem_of_find?_eq_some h),
        by simpa using List.find?_some h⟩
  | none =>
      simp only [Option.isSome_none, Bool.false_eq_true, false_iff, not_exists]
      intro s hs
      have hsome : ((scannedScripts env).reverse.find?
          (fun s => get_command_name s == n)).isSome := by
        rw [List.find?_isSome]
        exact ⟨s, List.mem_reverse.mpr hs.1, by simpa using hs.2⟩
      rw [h] at hsome
      exact absurd hsome (by simp)

/-- C1 (counterexample): the claim says internal commands take precedence, but
with the script `papis-add` discovered by the external scan, the registry
published by `init` maps the shared name `add` to the external command, not
the internal one: `init` applies the external map after the internal map. -/
theorem c1_counterexample :
    dlookup init_internal_commands "add" = some (internalCmd "add") ∧
    dlookup (init_external_commands ⟨["papis-add"], []⟩) "add"
      = some (externalCmd "papis-add") ∧
    (init initialState ⟨["papis-add"], []⟩).toOption.map (fun p => dlookup p.2 "add")
      = some (some (externalCmd "papis-add")) ∧
    externalCmd "papis-add" ≠ internalCmd "add" := by
  decide

/-- C1 (amended): for every command name that occurs both in the internal
built-in command set and among the externally discovered commands, the
registry produced by `init` maps that name to the external Command — external
commands override internal ones with the same name, because `init` applies
`commands.update(init_external_commands())` after
`commands.update(init_internal_commands())`. -/
theorem c1_external_precedence (st : CommandsState) (env : ScanEnv) (n : String)
    (ci ce : Cmd) (hst : get_commands st = none)
    (hi : dlookup init_internal_commands n = some ci)
    (he : dlookup (init_external_commands env) n = some ce) :
    ∃ st' m, init st env = .ok (st', m) ∧ dlookup m n = some ce := by
  refine ⟨set_commands st
      (dictUpdate (dictUpdate [] init_internal_commands) (init_external_commands env)),
    dictUpdate (dictUpdate [] init_internal_commands) (init_external_commands env),
    ?_, ?_⟩
  · unfold init
    rw [show get_commands st = none from hst]
    rfl
  · rw [dlookup_dictUpdate _ _ n (nodupKeys_init_external env), he]

/-- C1 (witness): the amended precedence theorem applied at the shared name
`add` with the external script `papis-add`. -/
theorem c1_external_precedence_witness :
    get_commands initialState = none ∧
    dlookup init_internal_commands "add" = some (internalCmd "add") ∧
    dlookup (init_external_commands ⟨["papis-add"], []⟩) "add"
      = some (externalCmd "papis-add") ∧
    ∃ st' m, init initialState ⟨["papis-add"], []⟩ = .ok (st', m) ∧
      dlookup m "add" = some (externalCmd "papis-add") :=
  ⟨rfl, by decide, by decide,
    c1_external_precedence initialState ⟨["papis-add"], []⟩ "add"
      (internalCmd "add") (externalCmd "papis-add") rfl (by decide) (by decide)⟩

/-- C3: in every process run, the first call to `init` on a state whose
registry is still unset succeeds and publishes the command mapping through
`set_commands`, and any second call raises the `RuntimeError`
"Commands are already initialised", regardless of which commands either scan
discovered; the error is returned to the caller, not swallowed. -/
theorem c3_init_once (st : CommandsState) (env env2 : ScanEnv)
    (h : get_commands st = none) :
    ∃ m, init st env = .ok (set_commands st m, m) ∧
      get_commands (set_commands st m) = some m ∧
      init (set_commands st m) env2 = .error "Commands are already initialised" := by
  refine ⟨dictUpdate (dictUpdate [] init_internal_commands) (init_external_commands env),
    ?_, rfl, rfl⟩
  unfold init
  rw [show get_commands st = none from h]
  rfl

/-- C3 (witness): the lifecycle theorem applied at the import-time state with
two different scan environments. -/
theorem c3_init_once_witness :
    get_commands initialState = none ∧
    ∃ m, init initialState ⟨["papis-short"], [["papis-zot"]]⟩
        = .ok (set_commands initialState m, m) ∧
      get_commands (set_commands initialState m) = some m ∧
      init (set_commands initialState m) ⟨[], [[]]⟩
        = .error "Commands are already initialised" :=
  ⟨rfl, c3_init_once initialState ⟨["papis-short"], [["papis-zot"]]⟩ ⟨[], [[]]⟩ rfl⟩

theorem get_args_foldl_set_args (later : List (Option Args)) (st : CommandsState)
    (a : Args) (h : st.ARGS = some a) :
    get_args (later.foldl set_args st) = some a := by
  induction later generalizing st with
  | nil => exact h
  | cons x rest ih =>
      rw [List.foldl_cons]
      have hx : set_args st x = st := by
        unfold set_args
        rw [h]
      rw [hx]
      exact ih st h

/-- C9: the global argument store is write-once — starting from a state where
`ARGS` is still unset, after the first `set_args` call with a non-`None`
value every subsequent `set_args` call (with any argument) is a silent no-op,
so `get_args` returns the arguments from that first call. -/
theorem c9_args_write_once (st : CommandsState) (a : Args) (later : List (Option Args))
    (h : get_args st = none) :
    get_args (later.foldl set_args (set_args st (some a))) = some a := by
  apply get_args_foldl_set_args
  show (set_args st (some a)).ARGS = some a
  unfold set_args
  rw [show st.ARGS = none from h]

/-- C9 (witness): the write-once theorem applied at the import-time state with
two later calls. -/
theorem c9_args_write_once_witness :
    get_args initialState = none ∧
    get_args ([some ["rm", "x"], none].foldl set_args
      (set_args initialState (some ["add", "y"]))) = some ["add", "y"] :=
  ⟨rfl, c9_args_write_once initialState ["add", "y"] [some ["rm", "x"], none] rfl⟩

/-! ## Claims about the update workflow -/

/-- C5: for every merge commit performed by `run`, the committed document's
`ref` field equals the document's value of that field from before the merge,
for every merged data mapping — including mappings in which an importer
supplied a conflicting `ref` — because `run` overwrites `data['ref']` with
the document's own value before merging and committing. -/
theorem c5_ref_preserved (st : DocState) (data : Dict String) (force : Bool)
    (r : String) (h : dlookup st.mem "ref" = some r) (hnd : NodupKeys data) :
    dlookup (run st data force).1.saved "ref" = some r ∧
    (run st data force).1.saved = (run st data force).1.mem := by
  constructor
  · show dlookup (dictUpdate st.mem (dput data "ref" (doc_getitem st.mem "ref"))) "ref"
      = some r
    rw [dlookup_dictUpdate _ _ "ref" (nodupKeys_dput data "ref" _ hnd), dlookup_dput_self]
    simp [doc_getitem, h]
  · rfl

/-- C5 (witness): the `ref`-preservation theorem applied to a document with
`ref = "r1"` and a data mapping carrying the conflicting value `"BAD"`. -/
theorem c5_ref_preserved_witness :
    dlookup (⟨[("ref", "r1"), ("title", "t")], [("ref", "r1"), ("title", "t")]⟩
        : DocState).mem "ref" = some "r1" ∧
    NodupKeys ([("ref", "BAD"), ("tags", "x")] : Dict String) ∧
    (dlookup (run ⟨[("ref", "r1"), ("title", "t")], [("ref", "r1"), ("title", "t")]⟩
        [("ref", "BAD"), ("tags", "x")] false).1.saved "ref" = some "r1" ∧
      (run ⟨[("ref", "r1"), ("title", "t")], [("ref", "r1"), ("title", "t")]⟩
          [("ref", "BAD"), ("tags", "x")] false).1.saved
        = (run ⟨[("ref", "r1"), ("title", "t")], [("ref", "r1"), ("title", "t")]⟩
          [("ref", "BAD"), ("tags", "x")] false).1.mem) :=
  ⟨by decide, by decide,
    c5_ref_preserved ⟨[("ref", "r1"), ("title", "t")], [("ref", "r1"), ("title", "t")]⟩
      [("ref", "BAD"), ("tags", "x")] false "r1" (by decide) (by decide)⟩

/-- C10: `run` mutates its caller's `data` argument — for every data mapping
passed in, after `run` returns the mapping contains a `ref` entry equal to
the document's pre-merge `ref`, overwriting any `ref` entry the caller
supplied (the returned second component is the caller's mutated dict). -/
theorem c10_run_mutates_data (st : DocState) (data : Dict String) (force : Bool)
    (r : String) (h : dlookup st.mem "ref" = some r) :
    dlookup (run st data force).2 "ref" = some r := by
  show dlookup (dput data "ref" (doc_getitem st.mem "ref")) "ref" = some r
  rw [dlookup_dput_self]
  simp [doc_getitem, h]

/-- C10 (witness): the mutation theorem applied to a caller dict that supplied
the conflicting `ref` value `"caller"`. -/
theorem c10_run_mutates_data_witness :
    dlookup (⟨[("ref", "r1")], [("ref", "r1")]⟩ : DocState).mem "ref" = some "r1" ∧
    dlookup (run ⟨[("ref", "r1")], [("ref", "r1")]⟩
      [("ref", "caller"), ("tags", "x")] false).2 "ref" = some "r1" :=
  ⟨by decide, c10_run_mutates_data ⟨[("ref", "r1")], [("ref", "r1")]⟩
    [("ref", "caller"), ("tags", "x")] false "r1" (by decide)⟩

theorem cli_no_importers (env : CliEnv) (opts : CliOptions) (docs : List DocState)
    (ha : opts.auto = false) (hf : opts.from_importer = []) :
    cli env opts docs =
      { docs := (docs.map (processDocument env opts)).map ProcResult.st,
        log := ((docs.map (processDocument env opts)).map ProcResult.log).foldl
          (· ++ ·) [] } := by
  cases hL : (docs.map (processDocument env opts)).getLast? with
  | none =>
      rw [List.getLast?_eq_none_iff] at hL
      simp [cli, hL]
  | some lastP =>
      simp only [cli, hL, hf, ha]
      simp [fromImporters]

theorem processDocument_no_directives (env : CliEnv) (opts : CliOptions) (st : DocState)
    (hs : opts.set = []) (hd : opts.delete = []) :
    processDocument env opts st = ⟨st, ⟨dictUpdate [] st.mem, []⟩, []⟩ := by
  simp [processDocument, hs, hd]

theorem foldl_append_of_all_nil {γ : Type} (L : List (List γ)) (acc : List γ)
    (h : ∀ x ∈ L, x = []) : L.foldl (· ++ ·) acc = acc := by
  induction L generalizing acc with
  | nil => rfl
  | cons x rest ih =>
      rw [List.foldl_cons, h x (by simp), List.append_nil]
      exact ih acc (fun y hy => h y (by simp [hy]))

/-- C4: for every list of picked documents, running an update with no `--set`,
no `--delete`, no `--auto` and no `--from` directive leaves every document's
persisted fields (and its in-memory fields) unchanged and reports no error. -/
theorem c4_no_directive_noop (env : CliEnv) (opts : CliOptions) (docs : List DocState)
    (hs : opts.set = []) (hd : opts.delete = []) (ha : opts.auto = false)
    (hf : opts.from_importer = []) :
    cli env opts docs = { docs := docs, log := [] } := by
  rw [cli_no_importers env opts docs ha hf,
    List.map_congr_left (fun st _ => processDocument_no_directives env opts st hs hd)]
  congr 1
  · rw [List.map_map]
    exact List.map_id docs
  · rw [List.map_map]
    apply foldl_append_of_all_nil
    intro x hx
    simp only [List.mem_map] at hx
    obtain ⟨a, ha2, hax⟩ := hx
    exact hax.symm

/-- C4 (witness): the no-op theorem applied to the default options and one
concrete document. -/
theorem c4_no_directive_noop_witness :
    (optsBase.set = [] ∧ optsBase.delete = [] ∧ optsBase.auto = false ∧
      optsBase.from_importer = []) ∧
    cli envPure optsBase [docTags] = { docs := [docTags], log := [] } :=
  ⟨⟨rfl, rfl, rfl, rfl⟩, c4_no_directive_noop envPure optsBase [docTags] rfl rfl rfl rfl⟩

/-- C7: for every document update with `--delete k` and `--no-interactive`
where the key `k` is absent from the document, the failed delete is reported
as a non-fatal error (`cli` returns normally with exactly that log entry) and
the document is unmodified — nothing is changed in memory or persisted. -/
theorem c7_delete_missing (env : CliEnv) (opts : CliOptions) (st : DocState) (k : String)
    (hint : opts.interactive = false) (hs : opts.set = []) (ha : opts.auto = false)
    (hf : opts.from_importer = []) (hd : opts.delete = [k])
    (habs : dlookup st.mem k = none) :
    cli env opts [st] = { docs := [st], log := [LogEntry.deleteMissingKey k] } := by
  have hcont : (st.mem.map Prod.fst).contains k = false := by
    rw [contains_keys_eq_isSome, habs]
    rfl
  have hdel : doc_delitem st.mem k = none := by
    unfold doc_delitem
    rw [hcont]
    rfl
  rw [cli_no_importers env opts [st] ha hf]
  simp [processDocument, hs, hd, deleteStep, hint, hdel]

/-- C7 (witness): the absent-key delete theorem applied at the key `isbn`,
absent from the concrete document. -/
theorem c7_delete_missing_witness :
    ({ optsBase with interactive := false, delete := ["isbn"] }.interactive = false ∧
      dlookup docTags.mem "isbn" = none) ∧
    cli envPure { optsBase with interactive := false, delete := ["isbn"] } [docTags]
      = { docs := [docTags], log := [LogEntry.deleteMissingKey "isbn"] } :=
  ⟨⟨rfl, by decide⟩,
    c7_delete_missing envPure { optsBase with interactive := false, delete := ["isbn"] }
      docTags "isbn" rfl rfl rfl rfl rfl (by decide)⟩

theorem mergeImporter_data (env : CliEnv) (ctx : Context) (imp : Dict String × List String) :
    (mergeImporter env ctx imp).data =
      if imp.1.length ≠ 0 then update_doc_from_data_interactively ctx.data imp.1
      else ctx.data := by
  unfold mergeImporter
  by_cases h1 : imp.1.length ≠ 0 <;> by_cases h2 : imp.2.length ≠ 0 <;> simp [h1, h2]

theorem cli_auto_single (env : CliEnv) (opts : CliOptions) (st : DocState)
    (dA : Dict String) (fA : List String) (lg : List LogEntry)
    (hs : opts.set = []) (hd : opts.delete = [])
    (hauto : opts.auto = true) (hfrom : opts.from_importer = [])
    (hAI : autoImporters env st.mem = ([(dA, fA)], lg))
    (hne : dA.length ≠ 0) :
    cli env opts [st] =
      { docs := [(run st (update_doc_from_data_interactively (dictUpdate [] st.mem) dA)
          opts.force).1],
        log := lg } := by
  simp [cli, processDocument_no_directives env opts st hs hd, hfrom, hauto, hAI,
    fromImporters, mergeImporter_data, hne]

/-- C6: in an automatic update (`--auto`), when one importer fetches field
data and another raises an unhandled exception, the run does not abort: the
raising importer is logged and dropped (the result equals the run without
it), and the final merged, committed document still contains the successful
importer's contributions. -/
theorem c6_importer_failure_isolated (env : CliEnv) (opts : CliOptions) (st : DocState)
    (dA : Dict String) (fA : List String) (k v : String)
    (himp : env.importers = [fun _ => ImporterOutcome.fetched true dA fA,
                             fun _ => ImporterOutcome.raisesError])
    (hauto : opts.auto = true) (hfrom : opts.from_importer = [])
    (hs : opts.set = []) (hd : opts.delete = [])
    (hk : k ≠ "ref") (hv : dlookup dA k = some v) (hndA : NodupKeys dA) :
    (cli env opts [st]).log = [LogEntry.importerFailed] ∧
    ((cli env opts [st]).docs.map fun f => dlookup f.saved k) = [some v] ∧
    (cli env opts [st]).docs =
      (cli { env with importers := [fun _ => ImporterOutcome.fetched true dA fA] }
        opts [st]).docs := by
  have hne : dA.length ≠ 0 := by
    intro h0
    rw [List.length_eq_zero] at h0
    subst h0
    simp [dlookup] at hv
  have hAI : autoImporters env st.mem = ([(dA, fA)], [LogEntry.importerFailed]) := by
    simp [autoImporters, himp]
  have hAI2 : autoImporters
      { env with importers := [fun _ => ImporterOutcome.fetched true dA fA] } st.mem
      = ([(dA, fA)], []) := by
    simp [autoImporters]
  rw [cli_auto_single env opts st dA fA [LogEntry.importerFailed] hs hd hauto hfrom hAI hne,
    cli_auto_single _ opts st dA fA [] hs hd hauto hfrom hAI2 hne]
  refine ⟨rfl, ?_, rfl⟩
  have hCD : NodupKeys (update_doc_from_data_interactively (dictUpdate [] st.mem) dA) :=
    nodupKeys_dictUpdate _ dA (nodupKeys_dictUpdate [] st.mem nodupKeys_nil)
  show [dlookup (dictUpdate st.mem
      (dput (update_doc_from_data_interactively (dictUpdate [] st.mem) dA) "ref"
        (doc_getitem st.mem "ref"))) k] = [some v]
  rw [dlookup_dictUpdate _ _ k (nodupKeys_dput _ "ref" _ hCD),
    dlookup_dput_ne _ "ref" k _ (Ne.symm hk)]
  rw [show update_doc_from_data_interactively (dictUpdate [] st.mem) dA
      = dictUpdate (dictUpdate [] st.mem) dA from rfl,
    dlookup_dictUpdate _ dA k hndA, hv]

/-- C6 (witness): the isolation theorem applied to `envC6`, whose first
importer fetches `title = T` and whose second raises. -/
theorem c6_importer_failure_isolated_witness :
    (envC6.importers = [fun _ => ImporterOutcome.fetched true [("title", "T")] [],
        fun _ => ImporterOutcome.raisesError] ∧
      ("title" : String) ≠ "ref" ∧
      dlookup [("title", "T")] "title" = some "T" ∧
      NodupKeys ([("title", "T")] : Dict String)) ∧
    ((cli envC6 { optsBase with auto := true } [docTags]).log
        = [LogEntry.importerFailed] ∧
      ((cli envC6 { optsBase with auto := true } [docTags]).docs.map
        fun f => dlookup f.saved "title") = [some "T"] ∧
      (cli envC6 { optsBase with auto := true } [docTags]).docs =
        (cli { envC6 with
            importers := [fun _ => ImporterOutcome.fetched true [("title", "T")] []] }
          { optsBase with auto := true } [docTags]).docs) :=
  ⟨⟨rfl, by decide, rfl, by decide⟩,
    c6_importer_failure_isolated envC6 { optsBase with auto := true } docTags
      [("title", "T")] [] "title" "T" rfl rfl rfl rfl rfl (by decide) rfl (by decide)⟩

/-- C2 (code bug): a document update with `--set tags "foo bar"` and no other
directive does not persist anything — `run` is reached only when
`matching_importers` is non-empty, and a pure `--set` only mutates the
transient context's data, never the document — so the persisted (and
in-memory) `tags` field keeps its old value instead of `"foo bar"`,
contradicting the module's own docstring examples and the spec. -/
theorem c2_set_not_persisted :
    cli envPure { optsBase with set := [("tags", "foo bar")] } [docTags]
      = { docs := [docTags], log := [] } ∧
    dlookup docTags.saved "tags" = some "old" ∧
    dlookup docTags.mem "tags" = some "old" := by
  decide

end Papis
